import Mathlib

/-!
# Verification of the rates-change-simulation backend

A shallow embedding of `backend/curve.py`, `backend/bond.py` and the
scenario-dispatch part of `backend/main.py`.  Yield curves (Python
`Dict[float, float]`) are modelled as association lists over `ℚ`
(exact rational arithmetic stands in for IEEE floats); the process-wide
curve cache is modelled by explicit state passing, and the network and
low-level string-to-float conversion are oracles supplied as arguments.
Fallible Python code (raised exceptions) is modelled with `Except`/`Option`.
-/

namespace RatesSim

/-- A yield curve: finitely many (tenor, yield-percent) points, tenors as
dictionary keys (insertion ordered, no duplicates when built from a dict). -/
abbrev Curve := List (ℚ × ℚ)

/-- The keys of an association list, in order. -/
def keysOf (c : Curve) : List ℚ := c.map Prod.fst

/-- Dictionary lookup: the first value bound to key `t` (Python `c[t]`). -/
def lookupKey (c : Curve) (t : ℚ) : Option ℚ :=
  match c with
  | [] => none
  | (t', y) :: rest => if t' = t then some y else lookupKey rest t

/-- Python `t in c` for a dict. -/
def hasKey (c : Curve) (t : ℚ) : Bool :=
  match c with
  | [] => false
  | (t', _) :: rest => t' = t || hasKey rest t

/-! ## Shock engine (`backend/curve.py` lines 121-185) -/

/-- Python `apply_parallel_shock(curve, magnitude_bps)`:
`{tenor: yld + magnitude_bps / 100.0 for tenor, yld in curve.items()}`. -/
def apply_parallel_shock (curve : Curve) (magnitude_bps : ℚ) : Curve :=
  let shift_pct := magnitude_bps / 100
  curve.map fun p => (p.1, p.2 + shift_pct)

/-- Python `max(curve.keys())`: greatest key, raising (here `none`) on an
empty dict. -/
def maxKey (c : Curve) : Option ℚ :=
  match c with
  | [] => none
  | (t, _) :: rest =>
    match maxKey rest with
    | none => some t
    | some m => some (max t m)

/-- Python `apply_steepener(curve, magnitude_bps, pivot_tenor=2.0)`.  The Python
body evaluates `max_tenor = max(curve.keys())`, which raises `ValueError`
on an empty curve; that exceptional outcome is the `none` case here. -/
def apply_steepener (curve : Curve) (magnitude_bps : ℚ)
    (pivot_tenor : ℚ := 2) : Option Curve :=
  let shift_pct := magnitude_bps / 100
  match maxKey curve with
  | none => none
  | some max_tenor =>
    some <| curve.map fun p =>
      let weight :=
        if p.1 ≤ pivot_tenor then
          -(pivot_tenor - p.1) / pivot_tenor
        else
          (p.1 - pivot_tenor) / (max_tenor - pivot_tenor)
      (p.1, p.2 + weight * shift_pct)

/-- Python `result[tenor] += shock_bps / 100.0`: add `d` to the value at
key `t`, leaving every other binding untouched. -/
def addAtKey (c : Curve) (t : ℚ) (d : ℚ) : Curve :=
  c.map fun p => if p.1 = t then (p.1, p.2 + d) else p

/-- Python `apply_custom_shock(curve, custom_shocks)`: start from a copy of the
curve and, for each `(tenor, shock_bps)` in the shock dict, add
`shock_bps / 100.0` at that tenor when the tenor is present. -/
def apply_custom_shock (curve : Curve) (custom_shocks : Curve) : Curve :=
  custom_shocks.foldl
    (fun result p =>
      if hasKey result p.1 then addAtKey result p.1 (p.2 / 100) else result)
    curve

/-! ## Bond metrics (`backend/bond.py`) -/

/-- Python `calculate_duration(yield_pct, tenor_years)`:
`0` at `tenor_years = 0`, otherwise `tenor_years / (1 + yield_pct / 100)`. -/
def calculate_duration (yield_pct tenor_years : ℚ) : ℚ :=
  if tenor_years = 0 then 0
  else
    let yield_decimal := yield_pct / 100
    tenor_years / (1 + yield_decimal)

/-- Python `calculate_dv01(yield_pct, tenor_years)`: `0` at `tenor_years = 0`,
otherwise `price * mod_duration * 0.0001` with the zero-coupon price
`100 / (1 + yield_pct/100) ** tenor_years`.  The fractional-exponent
float power is real-number exponentiation, hence the value lives in `ℝ`. -/
noncomputable def calculate_dv01 (yield_pct tenor_years : ℚ) : ℝ :=
  if tenor_years = 0 then 0
  else
    let yield_decimal : ℝ := (yield_pct : ℝ) / 100
    let price : ℝ := 100 / (1 + yield_decimal) ^ (tenor_years : ℝ)
    price * (calculate_duration yield_pct tenor_years : ℝ) * (1 / 10000)

/-! ## Curve provider and cache (`backend/curve.py` lines 10-118)

The network (`requests.get` + HTTP status check + `csv.reader` lexing of the
response body) is an oracle `http : ℤ → Except String (List (List String))`
giving, per requested year, either the parsed CSV records or the message of
the raised exception.  Python `float(...)` is the oracle
`parseVal : String → Option ℚ` (`none` models `ValueError`). -/

/-- The module-level `_CURVE_CACHE` dict: a fetch timestamp and an optional
`(date_str, curve)` payload (`data = None` at process start). -/
structure CacheState where
  timestamp : ℚ
  data : Option (String × Curve)
deriving DecidableEq

/-- Python `CACHE_TTL = 3600`. -/
def CACHE_TTL : ℚ := 3600

/-- Python `tenor_mapping`: the fixed column-header-to-tenor-years table. -/
def tenor_mapping : List (String × ℚ) :=
  [("1 Mo", 1/12), ("2 Mo", 2/12), ("3 Mo", 0.25), ("4 Mo", 4/12),
   ("6 Mo", 0.5), ("1 Yr", 1), ("2 Yr", 2), ("3 Yr", 3), ("5 Yr", 5),
   ("7 Yr", 7), ("10 Yr", 10), ("20 Yr", 20), ("30 Yr", 30)]

/-- Lookup in the tenor table (Python `header_clean in tenor_mapping` plus
`tenor_mapping[header_clean]`). -/
def lookupTenor (m : List (String × ℚ)) (k : String) : Option ℚ :=
  match m with
  | [] => none
  | (k', v) :: rest => if k' = k then some v else lookupTenor rest k

/-- Python dict assignment `curve[tenor] = yield_val`: overwrite in place
when the key exists, else append a new binding. -/
def dictInsert (c : Curve) (t v : ℚ) : Curve :=
  if hasKey c t then c.map fun p => if p.1 = t then (p.1, v) else p
  else c ++ [(t, v)]

/-- The column loop of `get_curve` (lines 90-101): for each header position,
strip the header, look it up in `tenor_mapping`, bounds-check the data row,
strip the cell, skip empty and `"ND"` cells, parse the float (skipping on
failure) and assign into the curve. -/
def buildCurve (parseVal : String → Option ℚ)
    (headers latest_row : List String) : Curve :=
  headers.enum.foldl
    (fun curve ih =>
      let header_clean := ih.2.trim
      match lookupTenor tenor_mapping header_clean with
      | none => curve
      | some tenor =>
        if h : ih.1 < latest_row.length then
          let val_str := (latest_row.get ⟨ih.1, h⟩).trim
          if val_str ≠ "" ∧ val_str ≠ "ND" then
            match parseVal val_str with
            | some yield_val => dictInsert curve tenor yield_val
            | none => curve
          else curve
        else curve)
    []

/-- Lines 62-107 of `get_curve` after a successful download: first record is
the header row, second is the latest observation; no rows at all raises
`StopIteration` (whose `str` is empty), no data row raises
`"CSV is empty (no data rows)"`, and `latest_row[0]` on an empty record
raises `IndexError`. -/
def parse_observation (parseVal : String → Option ℚ)
    (rows : List (List String)) : Except String (String × Curve) :=
  match rows with
  | [] => .error ""
  | headers :: rest =>
    match rest with
    | [] => .error "CSV is empty (no data rows)"
    | latest_row :: _ =>
      match latest_row with
      | [] => .error "list index out of range"
      | date_str :: _ => .ok (date_str, buildCurve parseVal headers latest_row)

/-- The year loop of `get_curve` (lines 37-55): try each year in order,
stopping at the first successful download; when every attempt fails, raise
`"Could not fetch Treasury data for current or previous year."`.  Also
returns the list of years for which a network request was issued. -/
def fetch_years (http : ℤ → Except String (List (List String))) :
    List ℤ → Except String (List (List String)) × List ℤ
  | [] => (.error "Could not fetch Treasury data for current or previous year.", [])
  | y :: ys =>
    match http y with
    | .ok rows => (.ok rows, [y])
    | .error _ =>
      let r := fetch_years http ys
      (r.1, y :: r.2)

/-- The whole `try` block of `get_curve` (lines 31-107) without the cache
write: attempt the current then the prior year, then parse the winning
response.  Second component: the years actually requested upstream. -/
def acquire_fresh (http : ℤ → Except String (List (List String)))
    (parseVal : String → Option ℚ) (current_year : ℤ) :
    Except String (String × Curve) × List ℤ :=
  let fr := fetch_years http [current_year, current_year - 1]
  match fr.1 with
  | .error e => (.error e, fr.2)
  | .ok rows => (parse_observation parseVal rows, fr.2)

/-- The observable outcome of one `get_curve()` call: its return value or
raised message, the cache state it leaves behind, and the years it hit the
network for. -/
structure FetchOutcome where
  result : Except String (String × Curve)
  state : CacheState
  calls : List ℤ

/-- The slow path of `get_curve`: run the `try` block; on success write the
payload into the cache stamped with `now` and return it; on any exception
return the cached payload if one exists (stale fallback, cache untouched),
else raise `"Unable to fetch Treasury data: {e}. No cached data available."`. -/
def fetch_attempt (now : ℚ) (current_year : ℤ)
    (http : ℤ → Except String (List (List String)))
    (parseVal : String → Option ℚ) (cache : CacheState) : FetchOutcome :=
  let a := acquire_fresh http parseVal current_year
  match a.1 with
  | .ok payload => ⟨.ok payload, ⟨now, some payload⟩, a.2⟩
  | .error e =>
    match cache.data with
    | some payload => ⟨.ok payload, cache, a.2⟩
    | none =>
      ⟨.error ("Unable to fetch Treasury data: " ++ e ++ ". No cached data available."),
       cache, a.2⟩

/-- Python `get_curve()` as a function of the clock reading `now`, the
current calendar year, the two oracles and the incoming cache state.
Lines 27-29: when the cached payload is present (a 2-tuple is always truthy)
and `now - timestamp < CACHE_TTL`, return it with no network access;
otherwise take the slow path. -/
def get_curve (now : ℚ) (current_year : ℤ)
    (http : ℤ → Except String (List (List String)))
    (parseVal : String → Option ℚ) (cache : CacheState) : FetchOutcome :=
  match cache.data with
  | some payload =>
    if now - cache.timestamp < CACHE_TTL then ⟨.ok payload, cache, []⟩
    else fetch_attempt now current_year http parseVal cache
  | none => fetch_attempt now current_year http parseVal cache

/-! ## Scenario analysis (`backend/main.py` lines 29-97)

`analyze_scenario` is modelled from the point where `get_curve()` has
already succeeded with `(date, original_curve)`; the 503 translation of
`DataUnavailable` belongs to the excluded service layer. -/

/-- The `AnalyzeRequest` pydantic model. -/
structure AnalyzeRequest where
  type : String
  magnitude : ℚ := 0
  pivot : Option ℚ := some 2
  custom_shocks : Option Curve := none

/-- Python `x or default` for an optional float: `None` and the falsy `0.0`
both give the default. -/
def pyOr (x : Option ℚ) (default : ℚ) : ℚ :=
  match x with
  | none => default
  | some v => if v = 0 then default else v

/-- Python `x or {}` for an optional dict. -/
def pyOrDict (x : Option Curve) : Curve :=
  match x with
  | none => []
  | some d => d

/-- The shock dispatch of `analyze_scenario` (lines 64-76): `"parallel"`,
`"steepener"` (with `request.pivot or 2.0`), `"custom"` (with
`request.custom_shocks or {}`), and for any other type a plain copy of the
original curve.  `none` is the steepener's `ValueError` on an empty curve. -/
def dispatch_shock (request : AnalyzeRequest) (original_curve : Curve) :
    Option Curve :=
  if request.type = "parallel" then
    some (apply_parallel_shock original_curve request.magnitude)
  else if request.type = "steepener" then
    apply_steepener original_curve request.magnitude (pyOr request.pivot 2)
  else if request.type = "custom" then
    some (apply_custom_shock original_curve (pyOrDict request.custom_shocks))
  else
    some original_curve

/-- One entry of the `metrics` dict of `analyze_scenario`. -/
structure TenorMetric where
  yld : ℚ
  delta_bps : ℚ
  duration : ℚ
  dv01 : ℝ

/-- The metrics loop (lines 79-90): for each tenor of the original curve,
index both curves (a missing key raises `KeyError`) and record the shocked
yield, the delta in bps, and the duration and DV01 at the shocked yield. -/
noncomputable def compute_metrics (original_curve shocked_curve : Curve) :
    Except String (List (ℚ × TenorMetric)) :=
  (keysOf original_curve).mapM fun tenor =>
    match lookupKey original_curve tenor, lookupKey shocked_curve tenor with
    | some orig_yield, some shock_yield =>
      .ok (tenor,
        ⟨shock_yield, (shock_yield - orig_yield) * 100,
         calculate_duration shock_yield tenor,
         calculate_dv01 shock_yield tenor⟩)
    | _, _ => .error "KeyError"

/-- The response body of `analyze_scenario`. -/
structure AnalyzeResponse where
  date : String
  original_curve : Curve
  shocked_curve : Curve
  metrics : List (ℚ × TenorMetric)

/-- The body of `analyze_scenario` after a successful `get_curve()`:
dispatch the shock, compute the per-tenor metrics, assemble the response;
an uncaught exception in either step is an `error`. -/
noncomputable def analyze_scenario (date : String) (original_curve : Curve)
    (request : AnalyzeRequest) : Except String AnalyzeResponse :=
  match dispatch_shock request original_curve with
  | none => .error "max() arg is an empty sequence"
  | some shocked_curve =>
    match compute_metrics original_curve shocked_curve with
    | .error e => .error e
    | .ok metrics => .ok ⟨date, original_curve, shocked_curve, metrics⟩

/-! ## Helper lemmas on association lists -/

/-- Mapping a key-preserving function over a curve leaves the key list. -/
lemma keysOf_mapVal (g : ℚ → ℚ → ℚ) (c : Curve) :
    keysOf (c.map fun p => (p.1, g p.1 p.2)) = keysOf c := by
  induction c with
  | nil => rfl
  | cons hd tl ih => exact congrArg (List.cons hd.1) ih

/-- Lookup through a key-preserving value map. -/
lemma lookupKey_mapVal (g : ℚ → ℚ → ℚ) (c : Curve) (t : ℚ) :
    lookupKey (c.map fun p => (p.1, g p.1 p.2)) t
      = (lookupKey c t).map (g t) := by
  induction c with
  | nil => rfl
  | cons hd tl ih =>
    by_cases h : hd.1 = t
    · subst h
      simp [lookupKey]
    · simp [lookupKey, h, ih]

lemma keysOf_addAtKey (c : Curve) (t d : ℚ) :
    keysOf (addAtKey c t d) = keysOf c := by
  unfold addAtKey
  induction c with
  | nil => rfl
  | cons hd tl ih =>
    simp only [List.map_cons]
    split
    · simpa [keysOf] using ih
    · simpa [keysOf] using ih

lemma lookupKey_addAtKey_self (c : Curve) (t d : ℚ) :
    lookupKey (addAtKey c t d) t = (lookupKey c t).map (· + d) := by
  unfold addAtKey
  induction c with
  | nil => rfl
  | cons hd tl ih =>
    simp only [List.map_cons]
    split
    next hkt => simp [lookupKey, hkt]
    next hkt => simp [lookupKey, hkt, ih]

lemma lookupKey_addAtKey_ne (c : Curve) (t d u : ℚ) (h : u ≠ t) :
    lookupKey (addAtKey c t d) u = lookupKey c u := by
  unfold addAtKey
  induction c with
  | nil => rfl
  | cons hd tl ih =>
    simp only [List.map_cons]
    split
    next hkt => simp [lookupKey, hkt, Ne.symm h, ih]
    next hkt => by_cases h2 : hd.1 = u <;> simp [lookupKey, h2, ih]

lemma addAtKey_zero (c : Curve) (t : ℚ) : addAtKey c t 0 = c := by
  unfold addAtKey
  induction c with
  | nil => rfl
  | cons hd tl ih =>
    by_cases h : hd.1 = t <;> simp [h, ih]

/-! ## Shock-engine theorems -/

/-- C7: the parallel shock keeps exactly the input's tenor set and shifts
every yield by `magnitude_bps / 100`; the input is a pure value in this
embedding, so it is left unmodified by construction (`apply_parallel_shock`
builds a fresh list). -/
theorem parallel_shock_char (c : Curve) (m : ℚ) :
    keysOf (apply_parallel_shock c m) = keysOf c ∧
    ∀ t, lookupKey (apply_parallel_shock c m) t
        = (lookupKey c t).map (fun y => y + m / 100) := by
  constructor
  · exact keysOf_mapVal (fun _ y => y + m / 100) c
  · intro t
    exact lookupKey_mapVal (fun _ y => y + m / 100) c t

/-- C5: two successive parallel shocks of `a` and `b` bps equal one parallel
shock of `a + b` bps. -/
theorem parallel_shock_additive (c : Curve) (a b : ℚ) :
    apply_parallel_shock (apply_parallel_shock c a) b
      = apply_parallel_shock c (a + b) := by
  unfold apply_parallel_shock
  induction c with
  | nil => rfl
  | cons hd tl ih =>
    simp only [List.map_cons, List.map_map] at *
    refine congrArg₂ List.cons ?_ ih
    have : hd.2 + a / 100 + b / 100 = hd.2 + (a + b) / 100 := by ring
    simp [this]

/-- C4 (counterexample): the steepener on the empty curve does not return
the empty curve — `max(curve.keys())` raises `ValueError`, modelled as
`none`, rather than producing `some []`. -/
theorem steepener_empty_cex : apply_steepener ([] : Curve) 100 2 = none := rfl

/-- C4 (amended): the parallel and custom shocks on the empty curve return
the empty curve, for every magnitude and every shock map; the steepener on
the empty curve raises instead (Python `ValueError: max() arg is an empty
sequence`), for every magnitude and pivot. -/
theorem empty_curve_shocks (m p : ℚ) (s : Curve) :
    apply_parallel_shock [] m = [] ∧
    apply_custom_shock [] s = [] ∧
    apply_steepener [] m p = none := by
  refine ⟨rfl, ?_, rfl⟩
  unfold apply_custom_shock
  induction s with
  | nil => rfl
  | cons hd tl ih => simpa [hasKey] using ih

/-- C3: for a non-empty curve whose greatest tenor is `maxT` and a pivot
strictly between `0` and `maxT`, the steepener succeeds and assigns to each
tenor `t` the yield `original + weight * (magnitude_bps / 100)` with
`weight = -(pivot - t)/pivot` for `t ≤ pivot` and
`weight = (t - pivot)/(maxT - pivot)` otherwise; in particular the pivot
tenor keeps its original yield exactly and the greatest tenor is shocked by
exactly `+magnitude_bps/100`. -/
theorem steepener_char (c : Curve) (m pivot maxT : ℚ) (_hne : c ≠ [])
    (hmax : maxKey c = some maxT) (_hp : 0 < pivot) (hlt : pivot < maxT) :
    ∃ r, apply_steepener c m pivot = some r ∧
      keysOf r = keysOf c ∧
      (∀ t y, lookupKey c t = some y →
        lookupKey r t = some (y +
          (if t ≤ pivot then -(pivot - t) / pivot
           else (t - pivot) / (maxT - pivot)) * (m / 100))) ∧
      (∀ y, lookupKey c pivot = some y → lookupKey r pivot = some y) ∧
      (∀ y, lookupKey c maxT = some y → lookupKey r maxT = some (y + m / 100)) := by
  refine ⟨c.map fun p =>
    (p.1, p.2 + (if p.1 ≤ pivot then -(pivot - p.1) / pivot
      else (p.1 - pivot) / (maxT - pivot)) * (m / 100)), ?_, ?_, ?_, ?_, ?_⟩
  · unfold apply_steepener
    rw [hmax]
  · exact keysOf_mapVal
      (fun k y => y + (if k ≤ pivot then -(pivot - k) / pivot
        else (k - pivot) / (maxT - pivot)) * (m / 100)) c
  · intro t y hy
    have h := lookupKey_mapVal
      (fun k y => y + (if k ≤ pivot then -(pivot - k) / pivot
        else (k - pivot) / (maxT - pivot)) * (m / 100)) c t
    rw [h, hy]
    rfl
  · intro y hy
    have h := lookupKey_mapVal
      (fun k y => y + (if k ≤ pivot then -(pivot - k) / pivot
        else (k - pivot) / (maxT - pivot)) * (m / 100)) c pivot
    rw [h, hy]
    simp
  · intro y hy
    have h := lookupKey_mapVal
      (fun k y => y + (if k ≤ pivot then -(pivot - k) / pivot
        else (k - pivot) / (maxT - pivot)) * (m / 100)) c maxT
    rw [h, hy]
    have hnle : ¬ maxT ≤ pivot := not_le.mpr hlt
    have hne2 : maxT - pivot ≠ 0 := sub_ne_zero.mpr (ne_of_gt hlt)
    simp [hnle, div_self hne2]

/-- Unfolding one step of the custom-shock fold. -/
lemma apply_custom_shock_cons (c : Curve) (p : ℚ × ℚ) (s : Curve) :
    apply_custom_shock c (p :: s) =
      apply_custom_shock
        (if hasKey c p.1 then addAtKey c p.1 (p.2 / 100) else c) s := rfl

lemma keysOf_custom (s c : Curve) :
    keysOf (apply_custom_shock c s) = keysOf c := by
  induction s generalizing c with
  | nil => rfl
  | cons p s ih =>
    rw [apply_custom_shock_cons, ih]
    split
    · exact keysOf_addAtKey c p.1 (p.2 / 100)
    · rfl

lemma lookup_custom_not_mem (s c : Curve) (t : ℚ) (h : t ∉ keysOf s) :
    lookupKey (apply_custom_shock c s) t = lookupKey c t := by
  induction s generalizing c with
  | nil => rfl
  | cons p s ih =>
    simp only [keysOf, List.map_cons, List.mem_cons] at h
    push_neg at h
    obtain ⟨h1, h2⟩ := h
    rw [apply_custom_shock_cons, ih _ h2]
    split
    · exact lookupKey_addAtKey_ne c p.1 (p.2 / 100) t h1
    · rfl

lemma hasKey_of_lookup (c : Curve) (t y : ℚ) (h : lookupKey c t = some y) :
    hasKey c t = true := by
  induction c with
  | nil => cases h
  | cons hd tl ih =>
    by_cases he : hd.1 = t
    · simp [hasKey, he]
    · rw [lookupKey, if_neg he] at h
      simp [hasKey, he, ih h]

lemma lookup_custom_both (s : Curve) (hs : (keysOf s).Nodup) (c : Curve)
    (t y d : ℚ) (hcy : lookupKey c t = some y) (hsd : lookupKey s t = some d) :
    lookupKey (apply_custom_shock c s) t = some (y + d / 100) := by
  induction s generalizing c with
  | nil => cases hsd
  | cons p s ih =>
    rw [apply_custom_shock_cons]
    simp only [keysOf, List.map_cons, List.nodup_cons] at hs
    by_cases he : p.1 = t
    · have hd : p.2 = d := by
        rw [lookupKey, if_pos he] at hsd
        exact Option.some.inj hsd
      have hnotin : t ∉ keysOf s := he ▸ hs.1
      rw [if_pos (he ▸ hasKey_of_lookup c t y hcy),
        lookup_custom_not_mem s _ t hnotin, he, lookupKey_addAtKey_self, hcy, hd]
      rfl
    · have hsd2 : lookupKey s t = some d := by
        rwa [lookupKey, if_neg he] at hsd
      have hstep : lookupKey
          (if hasKey c p.1 then addAtKey c p.1 (p.2 / 100) else c) t = some y := by
        split
        · exact (lookupKey_addAtKey_ne c p.1 (p.2 / 100) t
            (fun hh => he hh.symm)).trans hcy
        · exact hcy
      exact ih hs.2 _ hstep hsd2

lemma custom_zero (s c : Curve) (h : ∀ p ∈ s, p.2 = 0) :
    apply_custom_shock c s = c := by
  induction s generalizing c with
  | nil => rfl
  | cons p s ih =>
    rw [apply_custom_shock_cons]
    have hp : p.2 = 0 := h p (List.mem_cons_self p s)
    have hstep : (if hasKey c p.1 then addAtKey c p.1 (p.2 / 100) else c) = c := by
      rw [hp]
      norm_num [addAtKey_zero]
    rw [hstep]
    exact ih c fun q hq => h q (List.mem_cons_of_mem p hq)

/-- C6: the custom shock keeps exactly the curve's tenor set (tenors only in
the shock map are ignored), adds `shock_bps / 100` at each tenor present in
both the curve and the shock map, leaves tenors absent from the shock map
with their original yield unchanged, and an all-zero shock map is the
identity. -/
theorem custom_shock_char (c s : Curve) (hs : (keysOf s).Nodup) :
    keysOf (apply_custom_shock c s) = keysOf c ∧
    (∀ t, t ∉ keysOf s →
      lookupKey (apply_custom_shock c s) t = lookupKey c t) ∧
    (∀ t y d, lookupKey c t = some y → lookupKey s t = some d →
      lookupKey (apply_custom_shock c s) t = some (y + d / 100)) ∧
    ((∀ p ∈ s, p.2 = 0) → apply_custom_shock c s = c) := by
  refine ⟨keysOf_custom s c, ?_, ?_, ?_⟩
  · intro t ht
    exact lookup_custom_not_mem s c t ht
  · intro t y d hcy hsd
    exact lookup_custom_both s hs c t y d hcy hsd
  · intro hz
    exact custom_zero s c hz

/-! ## Bond-metric theorems -/

/-- C9: at `tenor_years = 0` both metrics are exactly `0`, whatever the
yield. -/
theorem zero_tenor_metrics (y : ℚ) :
    calculate_duration y 0 = 0 ∧ calculate_dv01 y 0 = 0 := by
  constructor
  · simp [calculate_duration]
  · simp [calculate_dv01]

/-- C8 (counterexample): duration is not strictly decreasing over ALL
yields: at tenor `1` the pair `y1 = -300 < y2 = 0` (a yield below `-100`
flips the sign of the discount factor) gives
`duration(-300, 1) = -1/2 < 1 = duration(0, 1)`, not `>`. -/
theorem duration_monotone_cex :
    (0:ℚ) < 1 ∧ (-300:ℚ) < 0 ∧
    ¬ calculate_duration 0 1 < calculate_duration (-300) 1 := by
  norm_num [calculate_duration]

/-- C8 (amended): for fixed positive tenor, duration is strictly decreasing
in yield on the domain `yield_pct > -100` (where `1 + yield_pct/100 > 0`). -/
theorem duration_strict_anti (t y1 y2 : ℚ) (ht : 0 < t) (hy1 : -100 < y1)
    (h12 : y1 < y2) : calculate_duration y2 t < calculate_duration y1 t := by
  unfold calculate_duration
  rw [if_neg (ne_of_gt ht), if_neg (ne_of_gt ht)]
  have h1 : (0:ℚ) < 1 + y1 / 100 := by linarith
  have h2 : (1:ℚ) + y1 / 100 < 1 + y2 / 100 := by linarith
  exact div_lt_div_of_pos_left ht h1 h2

/-! ## Cache and provider theorems -/

/-- C2: when the cache holds a payload stored strictly less than
`CACHE_TTL = 3600` seconds before `now`, `get_curve` returns that payload,
leaves the cache untouched, and issues no network request at all (the list
of years hit upstream is empty), whatever the oracles would have done. -/
theorem get_curve_fresh_cache (now ts : ℚ) (current_year : ℤ)
    (http : ℤ → Except String (List (List String)))
    (parseVal : String → Option ℚ) (p : String × Curve)
    (h : now - ts < CACHE_TTL) :
    get_curve now current_year http parseVal ⟨ts, some p⟩
      = ⟨.ok p, ⟨ts, some p⟩, []⟩ := by
  simp [get_curve, h]

/-- C1: `get_curve` raises if and only if the whole fresh-acquisition
pipeline (current year then prior year, then parsing) raises AND the cache
holds no payload; whenever acquisition fails but any payload is cached —
however old — that payload is returned; and in the failing case the raised
message carries the underlying reason
(`"Unable to fetch Treasury data: {e}. No cached data available."`). -/
theorem get_curve_failure_char (now : ℚ) (current_year : ℤ)
    (http : ℤ → Except String (List (List String)))
    (parseVal : String → Option ℚ) (cache : CacheState) :
    ((get_curve now current_year http parseVal cache).result.isOk = false ↔
      ((acquire_fresh http parseVal current_year).1.isOk = false ∧
        cache.data = none)) ∧
    (∀ p, cache.data = some p →
      (acquire_fresh http parseVal current_year).1.isOk = false →
      (get_curve now current_year http parseVal cache).result = .ok p) ∧
    (∀ e, cache.data = none →
      (acquire_fresh http parseVal current_year).1 = .error e →
      (get_curve now current_year http parseVal cache).result =
        .error ("Unable to fetch Treasury data: " ++ e ++
          ". No cached data available.")) := by
  obtain ⟨ts, data⟩ := cache
  cases data with
  | none =>
    simp only [get_curve, fetch_attempt]
    cases ha : (acquire_fresh http parseVal current_year).1 with
    | ok payload => simp [ha]
    | error e => simp [ha, Except.isOk, Except.toBool]
  | some p0 =>
    by_cases hfresh : now - ts < CACHE_TTL
    · simp only [get_curve, if_pos hfresh]
      simp [Except.isOk, Except.toBool]
    · simp only [get_curve, if_neg hfresh, fetch_attempt]
      cases ha : (acquire_fresh http parseVal current_year).1 with
      | ok payload => simp [ha, Except.isOk, Except.toBool]
      | error e => simp [ha, Except.isOk, Except.toBool]

/-! ## Scenario-analysis theorems -/

lemma lookup_some_of_mem_keys (c : Curve) (t : ℚ) (h : t ∈ keysOf c) :
    ∃ y, lookupKey c t = some y := by
  induction c with
  | nil => simp [keysOf] at h
  | cons hd tl ih =>
    by_cases he : hd.1 = t
    · exact ⟨hd.2, by simp [lookupKey, he]⟩
    · simp only [keysOf, List.map_cons, List.mem_cons] at h
      rcases h with h | h


      · exact absurd h.symm he
      · obtain ⟨y, hy⟩ := ih h
        exact ⟨y, by simp [lookupKey, he, hy]⟩

lemma metrics_self_aux (c : Curve) (l : List ℚ) (hl : ∀ t ∈ l, t ∈ keysOf c) :
    ∃ ms, (l.mapM fun tenor =>
        (match lookupKey c tenor, lookupKey c tenor with
          | some orig_yield, some shock_yield =>
            .ok (tenor,
              ⟨shock_yield, (shock_yield - orig_yield) * 100,
               calculate_duration shock_yield tenor,
               calculate_dv01 shock_yield tenor⟩)
          | _, _ => .error "KeyError" : Except String (ℚ × TenorMetric)))
      = .ok ms ∧ ∀ x ∈ ms, x.2.delta_bps = 0 := by
  induction l with
  | nil => exact ⟨[], rfl, by simp⟩
  | cons t l ih =>
    obtain ⟨ms, hms, hz⟩ := ih fun u hu => hl u (List.mem_cons_of_mem t hu)
    obtain ⟨y, hy⟩ := lookup_some_of_mem_keys c t (hl t (List.mem_cons_self t l))
    refine ⟨(t, ⟨y, (y - y) * 100, calculate_duration y t,
      calculate_dv01 y t⟩) :: ms, ?_, ?_⟩
    · rw [List.mapM_cons, hms]
      simp only [hy]
      rfl
    · intro x hx
      rcases List.mem_cons.mp hx with hx | hx
      · subst hx
        simp [TenorMetric.delta_bps]
      · exact hz x hx

lemma compute_metrics_self (c : Curve) :
    ∃ ms, compute_metrics c c = .ok ms ∧ ∀ x ∈ ms, x.2.delta_bps = 0 :=
  metrics_self_aux c (keysOf c) fun _ h => h

/-- C10: a request whose shock type is none of `"parallel"`, `"steepener"`
and `"custom"` is not rejected by `analyze_scenario`: it succeeds, the
shocked curve is (a copy of) the original curve, and every tenor's
`delta_bps` metric is `0`. -/
theorem analyze_unknown_type (date : String) (c : Curve)
    (request : AnalyzeRequest) (h1 : request.type ≠ "parallel")
    (h2 : request.type ≠ "steepener") (h3 : request.type ≠ "custom") :
    ∃ ms, analyze_scenario date c request = .ok ⟨date, c, c, ms⟩ ∧
      ∀ x ∈ ms, x.2.delta_bps = 0 := by
  obtain ⟨ms, hms, hz⟩ := compute_metrics_self c
  refine ⟨ms, ?_, hz⟩
  unfold analyze_scenario dispatch_shock
  rw [if_neg h1, if_neg h2, if_neg h3]
  simp only [hms]

/-! ## Witnesses -/

/-- Witness for C2 at a concrete fresh cache and a network that would
fail if it were ever consulted. -/
theorem get_curve_fresh_cache_witness :
    (100:ℚ) - 0 < CACHE_TTL ∧
    get_curve 100 2025 (fun _ => .error "Network down") (fun _ => none)
        ⟨0, some ("2025-01-02", [(1, 4)])⟩
      = ⟨.ok ("2025-01-02", [(1, 4)]), ⟨0, some ("2025-01-02", [(1, 4)])⟩, []⟩ :=
  ⟨by norm_num [CACHE_TTL],
   get_curve_fresh_cache 100 0 2025 (fun _ => .error "Network down")
     (fun _ => none) ("2025-01-02", [(1, 4)]) (by norm_num [CACHE_TTL])⟩

/-- Witness for C1: empty cache, both years failing — the raised message
carries the provider's reason. -/
theorem get_curve_failure_char_witness :
    (get_curve 5000 2025 (fun _ => .error "Network down") (fun _ => none)
        ⟨0, none⟩).result
      = .error "Unable to fetch Treasury data: Could not fetch Treasury data for current or previous year.. No cached data available." :=
  (get_curve_failure_char 5000 2025 (fun _ => .error "Network down")
      (fun _ => none) ⟨0, none⟩).2.2
    "Could not fetch Treasury data for current or previous year." rfl rfl

/-- Witness for C3 at the curve `{1: 3, 2: 4, 10: 5}`, `+100` bps,
pivot `2`. -/
theorem steepener_char_witness :
    ∃ r, apply_steepener [(1, 3), (2, 4), (10, 5)] 100 2 = some r ∧
      keysOf r = keysOf [(1, 3), (2, 4), (10, 5)] ∧
      (∀ t y, lookupKey [(1, 3), (2, 4), (10, 5)] t = some y →
        lookupKey r t = some (y +
          (if t ≤ 2 then -(2 - t) / 2
           else (t - 2) / (10 - 2)) * (100 / 100))) ∧
      (∀ y, lookupKey [(1, 3), (2, 4), (10, 5)] 2 = some y →
        lookupKey r 2 = some y) ∧
      (∀ y, lookupKey [(1, 3), (2, 4), (10, 5)] 10 = some y →
        lookupKey r 10 = some (y + 100 / 100)) :=
  steepener_char [(1, 3), (2, 4), (10, 5)] 100 2 10 (by simp)
    (by norm_num [maxKey]) (by norm_num) (by norm_num)

/-- Witness for C6 at curve `{1: 2, 3: 4}` and shock map
`{1: 100, 7: 50}`. -/
theorem custom_shock_char_witness :
    (keysOf ([(1, 100), (7, 50)] : Curve)).Nodup ∧
    (keysOf (apply_custom_shock [(1, 2), (3, 4)] [(1, 100), (7, 50)]) =
        keysOf [(1, 2), (3, 4)] ∧
      (∀ t, t ∉ keysOf ([(1, 100), (7, 50)] : Curve) →
        lookupKey (apply_custom_shock [(1, 2), (3, 4)] [(1, 100), (7, 50)]) t
          = lookupKey [(1, 2), (3, 4)] t) ∧
      (∀ t y d, lookupKey [(1, 2), (3, 4)] t = some y →
        lookupKey ([(1, 100), (7, 50)] : Curve) t = some d →
        lookupKey (apply_custom_shock [(1, 2), (3, 4)] [(1, 100), (7, 50)]) t
          = some (y + d / 100)) ∧
      ((∀ p ∈ ([(1, 100), (7, 50)] : Curve), p.2 = 0) →
        apply_custom_shock [(1, 2), (3, 4)] [(1, 100), (7, 50)]
          = [(1, 2), (3, 4)])) :=
  ⟨by norm_num [keysOf], custom_shock_char _ _ (by norm_num [keysOf])⟩

/-- Witness for the amended C8 at tenor `10` and yields `4 < 5`. -/
theorem duration_strict_anti_witness :
    (0:ℚ) < 10 ∧ (-100:ℚ) < 4 ∧ (4:ℚ) < 5 ∧
    calculate_duration 5 10 < calculate_duration 4 10 :=
  ⟨by norm_num, by norm_num, by norm_num,
   duration_strict_anti 10 4 5 (by norm_num) (by norm_num) (by norm_num)⟩

/-- Witness for C10 at shock type `"wedge"`. -/
theorem analyze_unknown_type_witness :
    ∃ ms, analyze_scenario "2025-01-02" [(2, 4), (10, 5)]
        ⟨"wedge", 25, some 2, none⟩
      = .ok ⟨"2025-01-02", [(2, 4), (10, 5)], [(2, 4), (10, 5)], ms⟩ ∧
      ∀ x ∈ ms, x.2.delta_bps = 0 :=
  analyze_unknown_type "2025-01-02" [(2, 4), (10, 5)]
    ⟨"wedge", 25, some 2, none⟩ (by decide) (by decide) (by decide)

end RatesSim
